import Mathlib

/-!
Verification of the employee CRUD application (Django app `employee`).

The development shallowly embeds the data model (`models.py`), and the six
request handlers (`views.py`): `home`, `create_view`, `create_employee`,
`update_view`, `update_employee`, `delete`.  The relational store is a list
of rows together with the auto-increment counter for the primary key; the
storage layer enforces the unique index on `email` (declared by
`models.EmailField(unique=True)`) on both insert and update, and the date
coercion of `models.DateField()` on `hire_date` (an unparseable date
string raises before any row is written), surfacing either violation as
an unhandled backend error.  Handlers are state-passing functions from a
request and a store to a response and a store.
-/

namespace EmployeeApp

/-- Employee row, as declared in `models.py`: five data fields plus the
system-generated primary key.  `hire_date` is carried as the submitted
string (the handlers never parse it). -/
structure Employee where
  id : Nat
  first_name : String
  last_name : String
  email : String
  position : String
  hire_date : String
deriving Repr, DecidableEq

/-- The relational store: the rows of the single table, plus the next value
of the auto-increment primary key. -/
structure Store where
  rows : List Employee
  nextId : Nat
deriving Repr, DecidableEq

/-- The empty database, primary keys starting at 1. -/
def Store.empty : Store := { rows := [], nextId := 1 }

/-- An HTTP request: its method and the POST form data (a key-value map,
as in `request.POST`). -/
structure Request where
  method : String
  postData : List (String × String)
deriving Repr, DecidableEq

/-- Embeds `request.POST.get(key)`: the value when present, else none. -/
def Request.get (r : Request) (k : String) : Option String :=
  (r.postData.find? (fun p => p.1 == k)).map Prod.snd

/-- Python truthiness of `request.POST.get(...)`: false for a missing key
(`None`) and for the empty string, true otherwise.  This is exactly the
check `if first_name and last_name and ...` performs per field. -/
def truthy : Option String → Bool
  | none => false
  | some s => !(s == "")

/-- The responses the handlers can produce: a rendered template (with the
employee rows passed in its context), a redirect, the 404 raised by
`get_object_or_404`, and the unhandled server error produced when the
storage layer rejects a write. -/
inductive Response where
  | render (template : String) (ctx : List Employee)
  | redirect (loc : String)
  | notFound
  | serverError
deriving Repr, DecidableEq

/-- Embeds `get_object_or_404(Employee, id=id)` without the 404: the first
row whose primary key matches. -/
def findById (s : Store) (id : Nat) : Option Employee :=
  s.rows.find? (fun e => e.id == id)

/-- Whether some row already holds the given email (the unique index). -/
def emailExists (s : Store) (em : String) : Bool :=
  s.rows.any (fun e => e.email == em)

/-- Digit run check used by the date pattern. -/
def allDigits (cs : List Char) : Bool := cs.all (fun c => c.isDigit)

/-- Numeric value of a digit run. -/
def digitsVal (cs : List Char) : Nat := cs.foldl (fun n c => n * 10 + (c.toNat - 48)) 0

/-- Splits a character list at each dash. -/
def splitDash : List Char → List (List Char)
  | [] => [[]]
  | c :: cs =>
    if c = '-' then [] :: splitDash cs
    else
      match splitDash cs with
      | [] => [[c]]
      | g :: gs => (c :: g) :: gs

/-- Gregorian leap-year test. -/
def isLeap (y : Nat) : Bool := (y % 4 == 0 && y % 100 != 0) || y % 400 == 0

/-- Number of days in a month of a year. -/
def daysInMonth (y m : Nat) : Nat :=
  if m == 2 then (if isLeap y then 29 else 28)
  else if m == 4 || m == 6 || m == 9 || m == 11 then 30
  else 31

/-- Models the date coercion Django's `DateField` (declared for
`hire_date` in `models.py`) applies to a submitted string on every
`create`/`save`, before any row is written: the string must consist of a
four-digit year, a dash, a one- or two-digit month, a dash and a one- or
two-digit day, and denote a valid calendar date; any other string raises
an unhandled `ValidationError` and nothing is stored. -/
def validDate (s : String) : Bool :=
  match splitDash s.data with
  | [ys, ms, ds] =>
    allDigits ys && allDigits ms && allDigits ds &&
    ys.length == 4 && (ms.length == 1 || ms.length == 2) &&
    (ds.length == 1 || ds.length == 2) &&
    Nat.ble 1 (digitsVal ys) && Nat.ble 1 (digitsVal ms) &&
    Nat.ble (digitsVal ms) 12 && Nat.ble 1 (digitsVal ds) &&
    Nat.ble (digitsVal ds) (daysInMonth (digitsVal ys) (digitsVal ms))
  | _ => false

/-- The two storage-layer failures a write can raise, both unhandled by
the handlers: the `ValidationError` from the `DateField` coercion of an
unparseable hire date, and the `IntegrityError` from the unique index on
`email`. -/
inductive WriteError where
  | validation
  | integrity
deriving Repr, DecidableEq

/-- Embeds `Employee.objects.create(...)`: the storage layer first coerces
the hire date, rejecting an unparseable string, then rejects a duplicate
email (unique index violation), and otherwise appends a fresh row under
the next primary key. -/
def objectsCreate (s : Store) (fn ln em pos hd : String) : Except WriteError Store :=
  if !(validDate hd) then .error .validation
  else if emailExists s em then .error .integrity
  else .ok { rows := s.rows ++ [⟨s.nextId, fn, ln, em, pos, hd⟩], nextId := s.nextId + 1 }

/-- Embeds `employee.save()` on a fetched row: the storage layer first
coerces the hire date, rejecting an unparseable string, then rejects the
write when a different row holds the same email, and otherwise overwrites
the row with this primary key. -/
def objectsSave (s : Store) (e : Employee) : Except WriteError Store :=
  if !(validDate e.hire_date) then .error .validation
  else if s.rows.any (fun r => !(r.id == e.id) && r.email == e.email) then .error .integrity
  else .ok { s with rows := s.rows.map (fun r => if r.id == e.id then e else r) }

/-- Lexicographic order on character lists (by code point). -/
def charListLe : List Char → List Char → Bool
  | [], _ => true
  | _ :: _, [] => false
  | a :: as, b :: bs => if a < b then true else if b < a then false else charListLe as bs

/-- Strict lexicographic order on character lists. -/
def charListLt : List Char → List Char → Bool
  | [], [] => false
  | [], _ :: _ => true
  | _ :: _, [] => false
  | a :: as, b :: bs => if a < b then true else if b < a then false else charListLt as bs

/-- Lexicographic order on strings, on their character data. -/
def strLe (a b : String) : Bool := charListLe a.data b.data

/-- Strict lexicographic order on strings. -/
def strLt (a b : String) : Bool := charListLt a.data b.data

/-- The default ordering declared in `Meta.ordering`: by `last_name`, then
by `first_name`, ascending. -/
def empLE (a b : Employee) : Bool :=
  if a.last_name == b.last_name then strLe a.first_name b.first_name
  else strLe a.last_name b.last_name

/-- The model ordering as a relation, for sorting. -/
def empRel (a b : Employee) : Prop := empLE a b = true

instance : DecidableRel empRel := fun a b => by unfold empRel; infer_instance

/-- The listing produced by the default ordering: the rows stably sorted by
`last_name` then `first_name`. -/
def listing (s : Store) : List Employee := s.rows.insertionSort empRel

/-- Embeds `home`: fetches all rows in the model's default ordering and
renders the table; the store is untouched. -/
def home (_req : Request) (s : Store) : Response × Store :=
  (.render "home.html" (listing s), s)

/-- Embeds `create_view`: renders the blank creation form. -/
def create_view (_req : Request) (s : Store) : Response × Store :=
  (.render "create.html" [], s)

/-- Embeds `create_employee`: on POST, reads the five form fields; if all
are present and non-empty, inserts the row and redirects home (an insert
rejected by the storage layer surfaces as an unhandled error); otherwise,
and on non-POST requests, re-renders the blank creation form. -/
def create_employee (req : Request) (s : Store) : Response × Store :=
  if req.method == "POST" then
    let first_name := req.get "first_name"
    let last_name := req.get "last_name"
    let email := req.get "email"
    let position := req.get "position"
    let hire_date := req.get "hire_date"
    if truthy first_name && truthy last_name && truthy email &&
        truthy position && truthy hire_date then
      match objectsCreate s (first_name.getD "") (last_name.getD "")
          (email.getD "") (position.getD "") (hire_date.getD "") with
      | .ok s2 => (.redirect "/", s2)
      | .error _ => (.serverError, s)
    else (.render "create.html" [], s)
  else (.render "create.html" [], s)

/-- Embeds `update_view`: 404 when the id is absent, otherwise renders the
update form pre-populated with the fetched row. -/
def update_view (_req : Request) (id : Nat) (s : Store) : Response × Store :=
  match findById s id with
  | none => (.notFound, s)
  | some e => (.render "update.html" [e], s)

/-- Embeds `update_employee`: 404 when the id is absent; on POST with all
five fields present and non-empty, overwrites the five fields of the
fetched row, saves, and redirects home (a save rejected by the storage
layer surfaces as an unhandled error); otherwise re-renders the form with
the fetched (original) row. -/
def update_employee (req : Request) (id : Nat) (s : Store) : Response × Store :=
  match findById s id with
  | none => (.notFound, s)
  | some employee =>
    if req.method == "POST" then
      let first_name := req.get "first_name"
      let last_name := req.get "last_name"
      let email := req.get "email"
      let position := req.get "position"
      let hire_date := req.get "hire_date"
      if truthy first_name && truthy last_name && truthy email &&
          truthy position && truthy hire_date then
        match objectsSave s { employee with
            first_name := first_name.getD "",
            last_name := last_name.getD "",
            email := email.getD "",
            position := position.getD "",
            hire_date := hire_date.getD "" } with
        | .ok s2 => (.redirect "/", s2)
        | .error _ => (.serverError, s)
      else (.render "update.html" [employee], s)
    else (.render "update.html" [employee], s)

/-- Embeds `delete`: 404 when the id is absent, otherwise removes the
fetched row and redirects home. -/
def delete (_req : Request) (id : Nat) (s : Store) : Response × Store :=
  match findById s id with
  | none => (.notFound, s)
  | some employee =>
    (.redirect "/", { s with rows := s.rows.filter (fun r => !(r.id == employee.id)) })

/-- A store state is reachable when it arises from the empty database by a
sequence of handler invocations. -/
inductive Reachable : Store → Prop where
  | init : Reachable Store.empty
  | step_home (r : Request) {s : Store} : Reachable s → Reachable (home r s).2
  | step_create_view (r : Request) {s : Store} : Reachable s → Reachable (create_view r s).2
  | step_create (r : Request) {s : Store} : Reachable s → Reachable (create_employee r s).2
  | step_update_view (r : Request) (id : Nat) {s : Store} :
      Reachable s → Reachable (update_view r id s).2
  | step_update (r : Request) (id : Nat) {s : Store} :
      Reachable s → Reachable (update_employee r id s).2
  | step_delete (r : Request) (id : Nat) {s : Store} :
      Reachable s → Reachable (delete r id s).2

/-- The store invariant: primary keys are below the auto-increment counter,
pairwise distinct, and emails are pairwise distinct (the unique index). -/
def StoreInv (s : Store) : Prop :=
  (∀ e ∈ s.rows, e.id < s.nextId) ∧
  s.rows.Pairwise (fun a b => a.id ≠ b.id) ∧
  s.rows.Pairwise (fun a b => a.email ≠ b.email)

/-! Order lemmas for the lexicographic comparisons. -/

theorem charListLe_rfl : ∀ (a : List Char), charListLe a a = true
  | [] => rfl
  | x :: xs => by simp [charListLe, lt_irrefl, charListLe_rfl xs]

theorem charListLe_trans : ∀ (a b c : List Char),
    charListLe a b = true → charListLe b c = true → charListLe a c = true
  | [], _, _, _, _ => rfl
  | _ :: _, [], _, h1, _ => by simp [charListLe] at h1
  | _ :: _, _ :: _, [], _, h2 => by simp [charListLe] at h2
  | x :: xs, y :: ys, z :: zs, h1, h2 => by
    simp only [charListLe] at h1 h2 ⊢
    rcases lt_trichotomy x y with hxy | hxy | hxy
    · rcases lt_trichotomy y z with hyz | hyz | hyz
      · simp [lt_trans hxy hyz]
      · subst hyz; simp [hxy]
      · simp [lt_asymm hyz, hyz] at h2
    · subst hxy
      simp only [lt_irrefl, if_false] at h1
      rcases lt_trichotomy x z with hxz | hxz | hxz
      · simp [hxz]
      · subst hxz
        simp only [lt_irrefl, if_false] at h2 ⊢
        exact charListLe_trans xs ys zs h1 h2
      · simp [lt_asymm hxz, hxz] at h2
    · simp [lt_asymm hxy, hxy] at h1

theorem charListLe_total : ∀ (a b : List Char),
    charListLe a b = true ∨ charListLe b a = true
  | [], _ => Or.inl rfl
  | _ :: _, [] => Or.inr rfl
  | x :: xs, y :: ys => by
    simp only [charListLe]
    rcases lt_trichotomy x y with hxy | hxy | hxy
    · simp [hxy]
    · subst hxy
      simp only [lt_irrefl, if_false]
      exact charListLe_total xs ys
    · simp [hxy, lt_asymm hxy]

theorem charListLe_antisymm : ∀ (a b : List Char),
    charListLe a b = true → charListLe b a = true → a = b
  | [], [], _, _ => rfl
  | [], _ :: _, _, h2 => by simp [charListLe] at h2
  | _ :: _, [], h1, _ => by simp [charListLe] at h1
  | x :: xs, y :: ys, h1, h2 => by
    simp only [charListLe] at h1 h2
    rcases lt_trichotomy x y with hxy | hxy | hxy
    · simp [hxy, lt_asymm hxy] at h2
    · subst hxy
      simp only [lt_irrefl, if_false] at h1 h2
      exact congrArg (x :: ·) (charListLe_antisymm xs ys h1 h2)
    · simp [hxy, lt_asymm hxy] at h1

theorem charListLt_of_le_of_ne : ∀ (a b : List Char),
    charListLe a b = true → a ≠ b → charListLt a b = true
  | [], [], _, hne => absurd rfl hne
  | [], _ :: _, _, _ => rfl
  | _ :: _, [], h1, _ => by simp [charListLe] at h1
  | x :: xs, y :: ys, h1, hne => by
    simp only [charListLe] at h1
    simp only [charListLt]
    rcases lt_trichotomy x y with hxy | hxy | hxy
    · simp [hxy]
    · subst hxy
      simp only [lt_irrefl, if_false] at h1 ⊢
      have hne2 : xs ≠ ys := by intro h; exact hne (by rw [h])
      exact charListLt_of_le_of_ne xs ys h1 hne2
    · simp [hxy, lt_asymm hxy] at h1

theorem strLe_rfl (a : String) : strLe a a = true := charListLe_rfl a.data

theorem strLe_trans {a b c : String} (h1 : strLe a b = true) (h2 : strLe b c = true) :
    strLe a c = true := charListLe_trans a.data b.data c.data h1 h2

theorem strLe_total (a b : String) : strLe a b = true ∨ strLe b a = true :=
  charListLe_total a.data b.data

theorem strLe_antisymm {a b : String} (h1 : strLe a b = true) (h2 : strLe b a = true) :
    a = b := by
  have h := charListLe_antisymm a.data b.data h1 h2
  cases a; cases b; exact congrArg String.mk h

theorem strLt_of_le_of_ne {a b : String} (h1 : strLe a b = true) (hne : a ≠ b) :
    strLt a b = true := by
  refine charListLt_of_le_of_ne a.data b.data h1 ?_
  intro h
  apply hne
  cases a; cases b; exact congrArg String.mk h

theorem empLE_trans (a b c : Employee) (h1 : empLE a b = true) (h2 : empLE b c = true) :
    empLE a c = true := by
  unfold empLE at *
  by_cases e1 : a.last_name = b.last_name <;> by_cases e2 : b.last_name = c.last_name
  · simp only [e1, e2, beq_self_eq_true, if_true] at *
    exact strLe_trans h1 h2
  · have e3 : ¬ a.last_name = c.last_name := by rw [e1]; exact e2
    simp only [e1, beq_self_eq_true, if_true, beq_iff_eq, e2, e3, if_false] at *
    exact h2
  · have e3 : ¬ a.last_name = c.last_name := by rw [← e2]; exact e1
    simp only [beq_iff_eq, e1, e2, e3, if_false, if_true] at *
    exact h1
  · simp only [beq_iff_eq, e1, e2, if_false] at h1 h2
    by_cases e3 : a.last_name = c.last_name
    · exfalso
      rw [e3] at h1
      exact e2 (strLe_antisymm h2 h1)
    · simp only [beq_iff_eq, e3, if_false]
      exact strLe_trans h1 h2

theorem empLE_total (a b : Employee) : empLE a b = true ∨ empLE b a = true := by
  unfold empLE
  by_cases e1 : a.last_name = b.last_name
  · simp only [e1, beq_self_eq_true, if_true]
    exact strLe_total a.first_name b.first_name
  · have e2 : ¬ b.last_name = a.last_name := fun h => e1 h.symm
    simp only [beq_iff_eq, e1, e2, if_false]
    exact strLe_total a.last_name b.last_name

instance : IsTrans Employee empRel := ⟨fun a b c => empLE_trans a b c⟩

instance : IsTotal Employee empRel := ⟨fun a b => empLE_total a b⟩

/-- The model ordering, stated the way the spec does: strictly earlier
`last_name`, or equal `last_name` and `first_name` no later. -/
theorem empLE_imp_spec (a b : Employee) (h : empLE a b = true) :
    strLt a.last_name b.last_name = true ∨
      (a.last_name = b.last_name ∧ strLe a.first_name b.first_name = true) := by
  unfold empLE at h
  by_cases e1 : a.last_name = b.last_name
  · simp only [e1, beq_self_eq_true, if_true] at h
    exact Or.inr ⟨e1, h⟩
  · simp only [beq_iff_eq, e1, if_false] at h
    exact Or.inl (strLt_of_le_of_ne h e1)

/-! Lemmas about lookup and the store invariant. -/

theorem findById_mem {s : Store} {id : Nat} {e : Employee} (h : findById s id = some e) :
    e ∈ s.rows :=
  List.mem_of_find?_eq_some h

theorem findById_id {s : Store} {id : Nat} {e : Employee} (h : findById s id = some e) :
    e.id = id := by
  have := List.find?_some h
  simpa using this

theorem storeInv_empty : StoreInv Store.empty := by
  refine ⟨?_, ?_, ?_⟩ <;> simp [Store.empty]

theorem storeInv_insert (s : Store) (fn ln em pos hd : String)
    (h : StoreInv s) (hem : emailExists s em = false) :
    StoreInv { rows := s.rows ++ [⟨s.nextId, fn, ln, em, pos, hd⟩], nextId := s.nextId + 1 } := by
  obtain ⟨hb, hid, heml⟩ := h
  simp only [emailExists, List.any_eq_false] at hem
  refine ⟨?_, ?_, ?_⟩
  · intro x hx
    rcases List.mem_append.mp hx with hx | hx
    · exact Nat.lt_succ_of_lt (hb x hx)
    · simp only [List.mem_singleton] at hx
      subst hx
      exact Nat.lt_succ_self _
  · refine List.pairwise_append.mpr ⟨hid, List.pairwise_singleton _ _, ?_⟩
    intro a ha b hbm
    simp only [List.mem_singleton] at hbm
    subst hbm
    exact Nat.ne_of_lt (hb a ha)
  · refine List.pairwise_append.mpr ⟨heml, List.pairwise_singleton _ _, ?_⟩
    intro a ha b hbm
    simp only [List.mem_singleton] at hbm
    subst hbm
    have := hem a ha
    simpa using this

theorem storeInv_save (s : Store) (e : Employee) (h : StoreInv s)
    (hg : s.rows.any (fun r => !(r.id == e.id) && r.email == e.email) = false) :
    StoreInv { s with rows := s.rows.map (fun r => if r.id == e.id then e else r) } := by
  obtain ⟨hb, hid, heml⟩ := h
  have key : ∀ r : Employee, (if r.id == e.id then e else r).id = r.id := by
    intro r
    split
    · rename_i hr
      exact (beq_iff_eq.mp hr).symm
    · rfl
  have hg2 : ∀ r ∈ s.rows, r.id ≠ e.id → r.email ≠ e.email := by
    intro r hr hrne
    have := List.any_eq_false.mp hg r hr
    simp only [Bool.and_eq_true, Bool.not_eq_true', beq_eq_false_iff_ne, beq_iff_eq,
      not_and] at this
    intro hcontra
    exact absurd hcontra (this hrne)
  refine ⟨?_, ?_, ?_⟩
  · intro x hx
    rcases List.mem_map.mp hx with ⟨r, hr, rfl⟩
    rw [key]
    exact hb r hr
  · rw [List.pairwise_map]
    exact hid.imp (fun {a b} hab => by rw [key, key]; exact hab)
  · rw [List.pairwise_map]
    refine (hid.and heml).imp_of_mem ?_
    intro a b ha hbm hab
    obtain ⟨hab1, hab2⟩ := hab
    by_cases ha1 : a.id = e.id <;> by_cases hb1 : b.id = e.id
    · exact absurd (ha1.trans hb1.symm) hab1
    · simp only [ha1, beq_self_eq_true, if_true, beq_iff_eq, hb1, if_false]
      exact (hg2 b hbm hb1).symm
    · simp only [beq_iff_eq, ha1, if_false, hb1, if_true]
      exact hg2 a ha ha1
    · simp only [beq_iff_eq, ha1, hb1, if_false]
      exact hab2

theorem objectsCreate_ok {s : Store} {fn ln em pos hd : String} {s2 : Store}
    (h : objectsCreate s fn ln em pos hd = .ok s2) :
    validDate hd = true ∧ emailExists s em = false ∧
    s2 = { rows := s.rows ++ [⟨s.nextId, fn, ln, em, pos, hd⟩], nextId := s.nextId + 1 } := by
  unfold objectsCreate at h
  split at h
  · exact absurd h (by simp)
  · rename_i hv
    split at h
    · exact absurd h (by simp)
    · rename_i hem
      exact ⟨by simpa using hv, by simpa using hem, (Except.ok.inj h).symm⟩

theorem objectsSave_ok {s : Store} {e : Employee} {s2 : Store}
    (h : objectsSave s e = .ok s2) :
    validDate e.hire_date = true ∧
    s.rows.any (fun r => !(r.id == e.id) && r.email == e.email) = false ∧
    s2 = { s with rows := s.rows.map (fun r => if r.id == e.id then e else r) } := by
  unfold objectsSave at h
  split at h
  · exact absurd h (by simp)
  · rename_i hv
    split at h
    · exact absurd h (by simp)
    · rename_i hg
      exact ⟨by simpa using hv, by simpa using hg, (Except.ok.inj h).symm⟩

theorem storeInv_create (r : Request) (s : Store) (h : StoreInv s) :
    StoreInv (create_employee r s).2 := by
  unfold create_employee
  dsimp only
  split
  · split
    · split
      · rename_i s2 hoc
        obtain ⟨hv, hem, rfl⟩ := objectsCreate_ok hoc
        exact storeInv_insert s _ _ _ _ _ h hem
      · exact h
    · exact h
  · exact h

theorem storeInv_update (r : Request) (id : Nat) (s : Store) (h : StoreInv s) :
    StoreInv (update_employee r id s).2 := by
  unfold update_employee
  dsimp only
  split
  · exact h
  · split
    · split
      · split
        · rename_i s2 hoc
          obtain ⟨hv, hg, rfl⟩ := objectsSave_ok hoc
          exact storeInv_save s _ h hg
        · exact h
      · exact h
    · exact h

theorem storeInv_delete (r : Request) (id : Nat) (s : Store) (h : StoreInv s) :
    StoreInv (delete r id s).2 := by
  unfold delete
  split
  · exact h
  · refine ⟨?_, ?_, ?_⟩
    · intro x hx
      exact h.1 x (List.mem_of_mem_filter hx)
    · exact h.2.1.filter _
    · exact h.2.2.filter _

theorem update_view_snd (r : Request) (id : Nat) (s : Store) :
    (update_view r id s).2 = s := by
  unfold update_view
  split <;> rfl

theorem reachable_storeInv {s : Store} (h : Reachable s) : StoreInv s := by
  induction h with
  | init => exact storeInv_empty
  | step_home r hr ih => exact ih
  | step_create_view r hr ih => exact ih
  | step_create r hr ih => exact storeInv_create r _ ih
  | step_update_view r id hr ih => rw [update_view_snd]; exact ih
  | step_update r id hr ih => exact storeInv_update r id _ ih
  | step_delete r id hr ih => exact storeInv_delete r id _ ih

/-! Helper lemmas about the handlers. -/

theorem delete_snd {r : Request} {id : Nat} {s : Store} {emp : Employee}
    (hfind : findById s id = some emp) :
    (delete r id s).2 = { s with rows := s.rows.filter (fun x => !(x.id == id)) } := by
  unfold delete
  rw [hfind]
  simp only [findById_id hfind]

theorem findById_after_delete (s : Store) (id : Nat) :
    findById { s with rows := s.rows.filter (fun x => !(x.id == id)) } id = none := by
  unfold findById
  apply List.find?_eq_none.mpr
  intro x hx
  have := List.of_mem_filter hx
  simpa using this

theorem mem_listing {s : Store} {e : Employee} : e ∈ listing s ↔ e ∈ s.rows :=
  (List.perm_insertionSort empRel s.rows).mem_iff

/-- C1 (amended): a POST to `create_employee` with all five fields present
and non-empty, whose hire date parses as a calendar date and whose email
is not already stored, inserts exactly one new row holding exactly the
submitted values, redirects to the listing view, and the subsequent
listing includes the new row. -/
theorem C1_create_valid (req : Request) (s : Store)
    (fn ln em pos hd : String)
    (hm : req.method = "POST")
    (h1 : req.get "first_name" = some fn) (n1 : fn ≠ "")
    (h2 : req.get "last_name" = some ln) (n2 : ln ≠ "")
    (h3 : req.get "email" = some em) (n3 : em ≠ "")
    (h4 : req.get "position" = some pos) (n4 : pos ≠ "")
    (h5 : req.get "hire_date" = some hd) (n5 : hd ≠ "")
    (hv : validDate hd = true)
    (hem : emailExists s em = false) :
    create_employee req s =
      (.redirect "/",
        { rows := s.rows ++ [⟨s.nextId, fn, ln, em, pos, hd⟩], nextId := s.nextId + 1 }) ∧
    (⟨s.nextId, fn, ln, em, pos, hd⟩ : Employee) ∈ listing (create_employee req s).2 := by
  have hstep : create_employee req s =
      (.redirect "/",
        { rows := s.rows ++ [⟨s.nextId, fn, ln, em, pos, hd⟩], nextId := s.nextId + 1 }) := by
    unfold create_employee
    simp only [hm, beq_self_eq_true, if_true, h1, h2, h3, h4, h5, truthy,
      Option.getD_some]
    simp [objectsCreate, hv, hem, n1, n2, n3, n4, n5]
  refine ⟨hstep, ?_⟩
  rw [hstep]
  exact mem_listing.mpr (List.mem_append.mpr (Or.inr (List.mem_singleton.mpr rfl)))

theorem C1_create_valid_witness :
    create_employee
        ⟨"POST", [("first_name", "Ada"), ("last_name", "Lovelace"),
          ("email", "ada@x.com"), ("position", "Engineer"), ("hire_date", "1975-01-01")]⟩
        Store.empty =
      (.redirect "/",
        { rows := [⟨1, "Ada", "Lovelace", "ada@x.com", "Engineer", "1975-01-01"⟩],
          nextId := 2 }) ∧
    (⟨1, "Ada", "Lovelace", "ada@x.com", "Engineer", "1975-01-01"⟩ : Employee) ∈
      listing (create_employee
        ⟨"POST", [("first_name", "Ada"), ("last_name", "Lovelace"),
          ("email", "ada@x.com"), ("position", "Engineer"), ("hire_date", "1975-01-01")]⟩
        Store.empty).2 := by
  have := C1_create_valid
    ⟨"POST", [("first_name", "Ada"), ("last_name", "Lovelace"),
      ("email", "ada@x.com"), ("position", "Engineer"), ("hire_date", "1975-01-01")]⟩
    Store.empty "Ada" "Lovelace" "ada@x.com" "Engineer" "1975-01-01"
    rfl (by decide) (by decide) (by decide) (by decide) (by decide) (by decide)
    (by decide) (by decide) (by decide) (by decide) (by decide) (by decide)
  exact this

/-- C3: whenever the identifier is absent from the store, `update_view`,
`update_employee` and `delete` all respond "not found" and leave the store
unchanged. -/
theorem C3_nonexistent_id (ru rs rd : Request) (id : Nat) (s : Store)
    (h : findById s id = none) :
    update_view ru id s = (.notFound, s) ∧
    update_employee rs id s = (.notFound, s) ∧
    delete rd id s = (.notFound, s) := by
  unfold update_view update_employee delete
  rw [h]
  exact ⟨rfl, rfl, rfl⟩

theorem C3_nonexistent_id_witness :
    update_view ⟨"GET", []⟩ 7 Store.empty = (.notFound, Store.empty) ∧
    update_employee ⟨"POST", []⟩ 7 Store.empty = (.notFound, Store.empty) ∧
    delete ⟨"GET", []⟩ 7 Store.empty = (.notFound, Store.empty) :=
  C3_nonexistent_id ⟨"GET", []⟩ ⟨"POST", []⟩ ⟨"GET", []⟩ 7 Store.empty (by decide)

/-- C4: deleting an existing identifier redirects to the listing view,
removes the row from the listing, and leaves the identifier unresolvable:
the update form, the update submission and a second delete all respond
"not found" afterwards. -/
theorem C4_delete_existing (r r2 r3 r4 : Request) (id : Nat) (s : Store) (emp : Employee)
    (hfind : findById s id = some emp) :
    (delete r id s).1 = .redirect "/" ∧
    (∀ e ∈ listing (delete r id s).2, e.id ≠ id) ∧
    findById (delete r id s).2 id = none ∧
    update_view r2 id (delete r id s).2 = (.notFound, (delete r id s).2) ∧
    update_employee r3 id (delete r id s).2 = (.notFound, (delete r id s).2) ∧
    delete r4 id (delete r id s).2 = (.notFound, (delete r id s).2) := by
  have h1 : (delete r id s).1 = .redirect "/" := by
    unfold delete
    rw [hfind]
  have h2 : (delete r id s).2 = { s with rows := s.rows.filter (fun x => !(x.id == id)) } :=
    delete_snd hfind
  have hnone : findById (delete r id s).2 id = none := by
    rw [h2]; exact findById_after_delete s id
  refine ⟨h1, ?_, hnone, ?_, ?_, ?_⟩
  · intro e he
    rw [h2] at he
    have := List.of_mem_filter (mem_listing.mp he)
    simpa using this
  · exact (C3_nonexistent_id r2 r3 r4 id _ hnone).1
  · exact (C3_nonexistent_id r2 r3 r4 id _ hnone).2.1
  · exact (C3_nonexistent_id r2 r3 r4 id _ hnone).2.2

theorem C4_delete_existing_witness :
    (delete ⟨"GET", []⟩ 1 ⟨[⟨1, "Ada", "Lovelace", "ada@x.com", "Engineer", "1975-01-01"⟩], 2⟩).1 =
      .redirect "/" ∧
    (∀ e ∈ listing (delete ⟨"GET", []⟩ 1
        ⟨[⟨1, "Ada", "Lovelace", "ada@x.com", "Engineer", "1975-01-01"⟩], 2⟩).2, e.id ≠ 1) ∧
    findById (delete ⟨"GET", []⟩ 1
        ⟨[⟨1, "Ada", "Lovelace", "ada@x.com", "Engineer", "1975-01-01"⟩], 2⟩).2 1 = none ∧
    update_view ⟨"GET", []⟩ 1 (delete ⟨"GET", []⟩ 1
        ⟨[⟨1, "Ada", "Lovelace", "ada@x.com", "Engineer", "1975-01-01"⟩], 2⟩).2 =
      (.notFound, (delete ⟨"GET", []⟩ 1
        ⟨[⟨1, "Ada", "Lovelace", "ada@x.com", "Engineer", "1975-01-01"⟩], 2⟩).2) ∧
    update_employee ⟨"POST", []⟩ 1 (delete ⟨"GET", []⟩ 1
        ⟨[⟨1, "Ada", "Lovelace", "ada@x.com", "Engineer", "1975-01-01"⟩], 2⟩).2 =
      (.notFound, (delete ⟨"GET", []⟩ 1
        ⟨[⟨1, "Ada", "Lovelace", "ada@x.com", "Engineer", "1975-01-01"⟩], 2⟩).2) ∧
    delete ⟨"GET", []⟩ 1 (delete ⟨"GET", []⟩ 1
        ⟨[⟨1, "Ada", "Lovelace", "ada@x.com", "Engineer", "1975-01-01"⟩], 2⟩).2 =
      (.notFound, (delete ⟨"GET", []⟩ 1
        ⟨[⟨1, "Ada", "Lovelace", "ada@x.com", "Engineer", "1975-01-01"⟩], 2⟩).2) :=
  C4_delete_existing ⟨"GET", []⟩ ⟨"GET", []⟩ ⟨"POST", []⟩ ⟨"GET", []⟩ 1
    ⟨[⟨1, "Ada", "Lovelace", "ada@x.com", "Engineer", "1975-01-01"⟩], 2⟩
    ⟨1, "Ada", "Lovelace", "ada@x.com", "Engineer", "1975-01-01"⟩ (by decide)

/-- C5: a POST to `create_employee` in which some field is missing or
empty inserts nothing and re-renders the blank creation form (the same
response as the creation form view, with no error information). -/
theorem C5_create_missing (req : Request) (s : Store)
    (hm : req.method = "POST")
    (h : truthy (req.get "first_name") = false ∨ truthy (req.get "last_name") = false ∨
         truthy (req.get "email") = false ∨ truthy (req.get "position") = false ∨
         truthy (req.get "hire_date") = false) :
    create_employee req s = (.render "create.html" [], s) := by
  unfold create_employee
  simp only [hm, beq_self_eq_true, if_true]
  rcases h with h | h | h | h | h <;> simp [h]

theorem C5_create_missing_witness :
    create_employee
        ⟨"POST", [("first_name", "Ada"), ("last_name", ""), ("email", "ada@x.com"),
          ("position", "Engineer"), ("hire_date", "1975-01-01")]⟩ Store.empty =
      (.render "create.html" [], Store.empty) :=
  C5_create_missing
    ⟨"POST", [("first_name", "Ada"), ("last_name", ""), ("email", "ada@x.com"),
      ("position", "Engineer"), ("hire_date", "1975-01-01")]⟩ Store.empty
    rfl (Or.inr (Or.inl (by decide)))

/-- C9: a non-POST request to `create_employee` inserts nothing and
re-renders the blank creation form, and a non-POST request to
`update_employee` modifies nothing: it responds "not found" when the
identifier is absent and otherwise re-renders the form with the current
record; neither handler mutates the store. -/
theorem C9_nonpost (rc ru : Request) (id : Nat) (s : Store)
    (hmc : rc.method ≠ "POST") (hmu : ru.method ≠ "POST") :
    create_employee rc s = (.render "create.html" [], s) ∧
    (findById s id = none → update_employee ru id s = (.notFound, s)) ∧
    (∀ emp, findById s id = some emp →
      update_employee ru id s = (.render "update.html" [emp], s)) := by
  refine ⟨?_, ?_, ?_⟩
  · unfold create_employee
    simp [hmc]
  · intro h
    unfold update_employee
    rw [h]
  · intro emp h
    unfold update_employee
    rw [h]
    simp [hmu]

theorem C9_nonpost_witness :
    create_employee ⟨"GET", [("first_name", "Ada")]⟩
        ⟨[⟨1, "Ada", "Lovelace", "ada@x.com", "Engineer", "1975-01-01"⟩], 2⟩ =
      (.render "create.html" [],
        ⟨[⟨1, "Ada", "Lovelace", "ada@x.com", "Engineer", "1975-01-01"⟩], 2⟩) ∧
    (findById ⟨[⟨1, "Ada", "Lovelace", "ada@x.com", "Engineer", "1975-01-01"⟩], 2⟩ 1 = none →
      update_employee ⟨"GET", [("first_name", "Ada")]⟩ 1
          ⟨[⟨1, "Ada", "Lovelace", "ada@x.com", "Engineer", "1975-01-01"⟩], 2⟩ =
        (.notFound, ⟨[⟨1, "Ada", "Lovelace", "ada@x.com", "Engineer", "1975-01-01"⟩], 2⟩)) ∧
    (∀ emp, findById ⟨[⟨1, "Ada", "Lovelace", "ada@x.com", "Engineer", "1975-01-01"⟩], 2⟩ 1 =
        some emp →
      update_employee ⟨"GET", [("first_name", "Ada")]⟩ 1
          ⟨[⟨1, "Ada", "Lovelace", "ada@x.com", "Engineer", "1975-01-01"⟩], 2⟩ =
        (.render "update.html" [emp],
          ⟨[⟨1, "Ada", "Lovelace", "ada@x.com", "Engineer", "1975-01-01"⟩], 2⟩)) :=
  C9_nonpost ⟨"GET", [("first_name", "Ada")]⟩ ⟨"GET", [("first_name", "Ada")]⟩ 1
    ⟨[⟨1, "Ada", "Lovelace", "ada@x.com", "Engineer", "1975-01-01"⟩], 2⟩
    (by decide) (by decide)

/-! Concrete rows, stores and requests used by witnesses and counterexamples. -/

def rowAda : Employee := ⟨1, "Ada", "Lovelace", "ada@x.com", "Engineer", "1975-01-01"⟩

def rowGrace : Employee := ⟨2, "Grace", "Hopper", "grace@x.com", "Admiral", "1943-01-01"⟩

def storeAda : Store := ⟨[rowAda], 2⟩

def dupStore : Store := ⟨[rowAda, rowGrace], 3⟩

def dupUpdateReq : Request :=
  ⟨"POST", [("first_name", "Ada"), ("last_name", "Lovelace"), ("email", "grace@x.com"),
    ("position", "Engineer"), ("hire_date", "1975-01-01")]⟩

def dupCreateReq : Request :=
  ⟨"POST", [("first_name", "Betty"), ("last_name", "Holberton"), ("email", "ada@x.com"),
    ("position", "Engineer"), ("hire_date", "1950-01-01")]⟩

def adaCreateReq : Request :=
  ⟨"POST", [("first_name", "Ada"), ("last_name", "Lovelace"), ("email", "ada@x.com"),
    ("position", "Engineer"), ("hire_date", "1975-01-01")]⟩

def junkDateReq : Request :=
  ⟨"POST", [("first_name", "Ada"), ("last_name", "Lovelace"), ("email", "new@x.com"),
    ("position", "Engineer"), ("hire_date", "not-a-date")]⟩

/-- C1 (counterexample): the claim as stated fails for a field tuple whose
hire date does not parse as a date: all five fields are present and
non-empty and the email is not already stored, yet the insert raises at
the storage layer's date coercion, unhandled — no row is inserted and no
redirect is returned. -/
theorem C1_create_counterexample :
    junkDateReq.method = "POST" ∧
    truthy (junkDateReq.get "first_name") = true ∧
    truthy (junkDateReq.get "last_name") = true ∧
    truthy (junkDateReq.get "email") = true ∧
    truthy (junkDateReq.get "position") = true ∧
    truthy (junkDateReq.get "hire_date") = true ∧
    emailExists Store.empty "new@x.com" = false ∧
    create_employee junkDateReq Store.empty = (.serverError, Store.empty) ∧
    (Response.serverError ≠ Response.redirect "/") := by
  decide

/-- C2 (amended): for an existing identifier, a POST to `update_employee`
with all five fields present and non-empty, whose hire date parses as a
calendar date and whose email does not duplicate the email of a different
record, overwrites all five fields of that record, persists the change,
redirects to the listing view, and the subsequent listing contains the
updated record. -/
theorem C2_update_valid (req : Request) (id : Nat) (s : Store) (emp : Employee)
    (fn ln em pos hd : String)
    (hfind : findById s id = some emp)
    (hm : req.method = "POST")
    (h1 : req.get "first_name" = some fn) (n1 : fn ≠ "")
    (h2 : req.get "last_name" = some ln) (n2 : ln ≠ "")
    (h3 : req.get "email" = some em) (n3 : em ≠ "")
    (h4 : req.get "position" = some pos) (n4 : pos ≠ "")
    (h5 : req.get "hire_date" = some hd) (n5 : hd ≠ "")
    (hv : validDate hd = true)
    (hnc : ∀ x ∈ s.rows, x.id ≠ emp.id → x.email ≠ em) :
    update_employee req id s =
      (.redirect "/",
        ⟨s.rows.map fun x => if x.id == emp.id then ⟨emp.id, fn, ln, em, pos, hd⟩ else x,
          s.nextId⟩) ∧
    (⟨emp.id, fn, ln, em, pos, hd⟩ : Employee) ∈ listing (update_employee req id s).2 := by
  have hguard : s.rows.any (fun x => !(x.id == emp.id) && x.email == em) = false := by
    apply List.any_eq_false.mpr
    intro x hx
    simp only [Bool.and_eq_true, Bool.not_eq_true', beq_eq_false_iff_ne, ne_eq,
      beq_iff_eq, not_and]
    intro hid
    exact hnc x hx hid
  have hstep : update_employee req id s =
      (.redirect "/",
        ⟨s.rows.map fun x => if x.id == emp.id then ⟨emp.id, fn, ln, em, pos, hd⟩ else x,
          s.nextId⟩) := by
    unfold update_employee
    rw [hfind]
    simp only [hm, beq_self_eq_true, if_true, h1, h2, h3, h4, h5, truthy, Option.getD_some]
    simp only [objectsSave]
    dsimp only
    rw [hv, hguard]
    simp [n1, n2, n3, n4, n5]
  refine ⟨hstep, ?_⟩
  rw [hstep]
  apply mem_listing.mpr
  apply List.mem_map.mpr
  exact ⟨emp, findById_mem hfind, by simp⟩

theorem C2_update_valid_witness :
    update_employee dupUpdateReq 2 dupStore =
      (.redirect "/",
        ⟨dupStore.rows.map fun x => if x.id == rowGrace.id
            then ⟨rowGrace.id, "Ada", "Lovelace", "grace@x.com", "Engineer", "1975-01-01"⟩
            else x,
          dupStore.nextId⟩) ∧
    (⟨rowGrace.id, "Ada", "Lovelace", "grace@x.com", "Engineer", "1975-01-01"⟩ : Employee) ∈
      listing (update_employee dupUpdateReq 2 dupStore).2 :=
  C2_update_valid dupUpdateReq 2 dupStore rowGrace
    "Ada" "Lovelace" "grace@x.com" "Engineer" "1975-01-01"
    (by decide) rfl (by decide) (by decide) (by decide) (by decide) (by decide)
    (by decide) (by decide) (by decide) (by decide) (by decide) (by decide)
    (by decide)

/-- C2 (counterexample): the claim as stated fails when the submitted email
duplicates the email of a different record: all five fields are present and
non-empty and the identifier exists, yet the handler does not redirect and
the record is not overwritten — the save fails at the storage layer,
unhandled, leaving the store unchanged. -/
theorem C2_update_counterexample :
    findById dupStore 1 = some rowAda ∧
    dupUpdateReq.method = "POST" ∧
    truthy (dupUpdateReq.get "first_name") = true ∧
    truthy (dupUpdateReq.get "last_name") = true ∧
    truthy (dupUpdateReq.get "email") = true ∧
    truthy (dupUpdateReq.get "position") = true ∧
    truthy (dupUpdateReq.get "hire_date") = true ∧
    update_employee dupUpdateReq 1 dupStore = (.serverError, dupStore) ∧
    (Response.serverError ≠ Response.redirect "/") := by
  decide

/-- C6: for an existing identifier, a POST to `update_employee` in which
some field is missing or empty leaves the store (and so the stored record)
unchanged and re-renders the form with the original, pre-update record. -/
theorem C6_update_invalid (req : Request) (id : Nat) (s : Store) (emp : Employee)
    (hfind : findById s id = some emp)
    (hm : req.method = "POST")
    (h : truthy (req.get "first_name") = false ∨ truthy (req.get "last_name") = false ∨
         truthy (req.get "email") = false ∨ truthy (req.get "position") = false ∨
         truthy (req.get "hire_date") = false) :
    update_employee req id s = (.render "update.html" [emp], s) := by
  unfold update_employee
  rw [hfind]
  simp only [hm, beq_self_eq_true, if_true]
  rcases h with h | h | h | h | h <;> simp [h]

theorem C6_update_invalid_witness :
    update_employee
        ⟨"POST", [("first_name", "Augusta"), ("last_name", ""), ("email", "ada@x.com"),
          ("position", "Engineer"), ("hire_date", "1975-01-01")]⟩ 1 storeAda =
      (.render "update.html" [rowAda], storeAda) :=
  C6_update_invalid
    ⟨"POST", [("first_name", "Augusta"), ("last_name", ""), ("email", "ada@x.com"),
      ("position", "Engineer"), ("hire_date", "1975-01-01")]⟩ 1 storeAda rowAda
    (by decide) rfl (Or.inr (Or.inl (by decide)))

/-- C7: in every reachable store state the emails of the rows are pairwise
distinct, and a fully-filled create submission whose email is already
stored does not silently succeed: the insert is rejected at the storage
layer and the handler, which does not catch the failure, surfaces an
unhandled server error with the store unchanged. -/
theorem C7_email_unique :
    (∀ s : Store, Reachable s → s.rows.Pairwise (fun a b => a.email ≠ b.email)) ∧
    (∀ (req : Request) (s : Store) (fn ln em pos hd : String),
      req.method = "POST" →
      req.get "first_name" = some fn → fn ≠ "" →
      req.get "last_name" = some ln → ln ≠ "" →
      req.get "email" = some em → em ≠ "" →
      req.get "position" = some pos → pos ≠ "" →
      req.get "hire_date" = some hd → hd ≠ "" →
      emailExists s em = true →
      create_employee req s = (.serverError, s)) := by
  constructor
  · exact fun s h => (reachable_storeInv h).2.2
  · intro req s fn ln em pos hd hm h1 n1 h2 n2 h3 n3 h4 n4 h5 n5 hdup
    unfold create_employee
    simp only [hm, beq_self_eq_true, if_true, h1, h2, h3, h4, h5, truthy, Option.getD_some]
    by_cases hv : validDate hd = true
    · simp [objectsCreate, hv, hdup, n1, n2, n3, n4, n5]
    · have hv2 : validDate hd = false := by simpa using hv
      simp [objectsCreate, hv2, n1, n2, n3, n4, n5]

theorem C7_email_unique_witness :
    (create_employee adaCreateReq Store.empty).2.rows.Pairwise
      (fun a b => a.email ≠ b.email) ∧
    create_employee dupCreateReq storeAda = (.serverError, storeAda) :=
  ⟨C7_email_unique.1 (create_employee adaCreateReq Store.empty).2
      (Reachable.step_create adaCreateReq Reachable.init),
   C7_email_unique.2 dupCreateReq storeAda "Betty" "Holberton" "ada@x.com" "Engineer"
     "1950-01-01" rfl (by decide) (by decide) (by decide) (by decide) (by decide)
     (by decide) (by decide) (by decide) (by decide) (by decide) (by decide)⟩

/-- C8: for every store state, the listing handler renders every row,
ordered ascending by `last_name` and then by `first_name`,
lexicographically, and leaves the store unchanged. -/
theorem C8_listing_ordered (req : Request) (s : Store) :
    home req s = (.render "home.html" (listing s), s) ∧
    (listing s).Perm s.rows ∧
    List.Pairwise (fun a b =>
      strLt a.last_name b.last_name = true ∨
        (a.last_name = b.last_name ∧ strLe a.first_name b.first_name = true)) (listing s) := by
  refine ⟨rfl, List.perm_insertionSort _ _, ?_⟩
  exact List.Pairwise.imp (fun h => empLE_imp_spec _ _ h)
    (List.sorted_insertionSort empRel s.rows)

/-! Requests exercising the absence of trimming and of format validation. -/

def wsCreateReq : Request :=
  ⟨"POST", [("first_name", " "), ("last_name", " "), ("email", " "),
    ("position", " "), ("hire_date", " ")]⟩

def wsFieldsReq : Request :=
  ⟨"POST", [("first_name", " "), ("last_name", " "), ("email", " "),
    ("position", " "), ("hire_date", "1975-01-01")]⟩

def junkCreateReq : Request :=
  ⟨"POST", [("first_name", "ThisFirstNameIsWayLongerThanThirtyCharacters"),
    ("last_name", "Doe"), ("email", "not-an-email"), ("position", "Dev"),
    ("hire_date", "2020-01-01")]⟩

/-- C10 (amended): the handler's check on create and update is exactly
string non-emptiness, with no trimming and no format validation in the
handler: a string of one space passes it and is stored verbatim in the
four character fields, on create and on update, and no email-format or
length check is performed anywhere — a malformed email and an over-length
name are inserted verbatim.  The hire date, however, is coerced by the
storage layer: a whitespace hire date passes the handler's emptiness check
but the write then fails there, unhandled, with nothing stored. -/
theorem C10_no_trim_no_format :
    truthy (some " ") = true ∧
    create_employee wsFieldsReq Store.empty =
      (.redirect "/", ⟨[⟨1, " ", " ", " ", " ", "1975-01-01"⟩], 2⟩) ∧
    update_employee wsFieldsReq 1 storeAda =
      (.redirect "/", ⟨[⟨1, " ", " ", " ", " ", "1975-01-01"⟩], 2⟩) ∧
    create_employee junkCreateReq Store.empty =
      (.redirect "/",
        ⟨[⟨1, "ThisFirstNameIsWayLongerThanThirtyCharacters", "Doe", "not-an-email",
          "Dev", "2020-01-01"⟩], 2⟩) ∧
    create_employee wsCreateReq Store.empty = (.serverError, Store.empty) ∧
    update_employee wsCreateReq 1 storeAda = (.serverError, storeAda) := by
  decide

/-- C10 (counterexample): the claim's all-whitespace submission is not
accepted by the program: every field is a non-empty whitespace string, so
the submission passes the handler's emptiness check, but the storage
layer's date coercion rejects the whitespace hire date — an unhandled
failure with nothing stored, not a verbatim insert. -/
theorem C10_counterexample :
    truthy (wsCreateReq.get "first_name") = true ∧
    truthy (wsCreateReq.get "last_name") = true ∧
    truthy (wsCreateReq.get "email") = true ∧
    truthy (wsCreateReq.get "position") = true ∧
    truthy (wsCreateReq.get "hire_date") = true ∧
    create_employee wsCreateReq Store.empty = (.serverError, Store.empty) ∧
    (Response.serverError ≠ Response.redirect "/") := by
  decide

end EmployeeApp
